import Mathlib

/-!
Verification of the MisterHR frontend pages (resume upload page,
registration page, dashboard page) and of the profiles-table row-level
security policies, as a shallow embedding of the TypeScript/SQL source.
-/

namespace MisterHR

/-! ## Upload configuration and browser files

The upload page reads `config.upload` from `@/lib/config`: a list of
accepted MIME types, the maximum size in bytes, and the display strings
derived from them (`ACCEPTED_FILES`, `MAX_SIZE`).  The page is written
against an arbitrary such configuration, so the model quantifies over it. -/

structure UploadConfig where
  acceptedTypes : List String
  maxSize : Nat
  acceptedFilesLabel : String
  maxSizeMBLabel : String
  deriving Repr, DecidableEq

/-- A browser `File` object, restricted to the fields the page reads. -/
structure JsFile where
  name : String
  type : String
  size : Nat
  deriving Repr, DecidableEq

/-- The message `validateFile` returns for a rejected MIME type. -/
def invalidTypeMsg (cfg : UploadConfig) : String :=
  "Please upload a valid file type: " ++ cfg.acceptedFilesLabel

/-- The message `validateFile` returns for an oversized file. -/
def oversizeMsg (cfg : UploadConfig) : String :=
  "File size must be less than " ++ cfg.maxSizeMBLabel ++ "MB"

/-- `validateFile` from the resume upload page: reject when the MIME type
is not among the accepted types, then reject when the size exceeds the
maximum, otherwise return `null`. -/
def validateFile (cfg : UploadConfig) (file : JsFile) : Option String :=
  if file.type ∈ cfg.acceptedTypes then
    if file.size > cfg.maxSize then some (oversizeMsg cfg) else none
  else
    some (invalidTypeMsg cfg)

/-! ## Upload page state -/

inductive UploadState where
  | idle | uploading | processing | completed | error
  deriving Repr, DecidableEq

/-- The React state of the resume upload page, together with the value of
the hidden file input referenced by `fileInputRef`. -/
structure UploadPageState where
  file : Option JsFile
  uploadState : UploadState
  uploadProgress : Nat
  errorMsg : String
  processingStatus : String
  inputValue : String
  deriving Repr, DecidableEq

/-- `handleFileSelect`: on a validation error, set the error message and
return; otherwise store the file, clear the error and reset the state. -/
def handleFileSelect (cfg : UploadConfig) (selectedFile : JsFile)
    (s : UploadPageState) : UploadPageState :=
  match validateFile cfg selectedFile with
  | some msg => { s with errorMsg := msg }
  | none =>
    { s with file := some selectedFile, errorMsg := "",
             uploadState := UploadState.idle }

/-- `removeFile`: clear the selected file, reset the state, clear the
error and blank the file input. -/
def removeFile (s : UploadPageState) : UploadPageState :=
  { s with file := none, uploadState := UploadState.idle,
           errorMsg := "", inputValue := "" }

/-! ## The `uploadFile` action as an effect trace

`uploadFile` is async code that issues React state updates, timer waits
and a scheduled client-side redirect; it performs no network request.
The model records the sequence of effects the function issues, with a
`httpRequest` constructor available so that the absence of any request
is expressible. -/

inductive Effect where
  | setUploadState (st : UploadState)
  | setUploadProgress (p : Nat)
  | setError (msg : String)
  | setProcessingStatus (msg : String)
  | sleep (ms : Nat)
  | scheduleRedirect (path : String) (delayMs : Nat)
  | httpRequest (method url : String) (multipartFile : Option JsFile)
  deriving Repr, DecidableEq

def Effect.isHttpRequest : Effect → Bool
  | Effect.httpRequest _ _ _ => true
  | _ => false

/-- The status strings of the simulated AI processing loop. -/
def processingSteps : List String :=
  ["Extracting text and structure...",
   "Identifying key skills and experience...",
   "Analyzing job relevance...",
   "Generating optimization insights...",
   "Creating ATS-friendly format..."]

/-- The values taken by `progress` in the simulated upload loop
(`for (let progress = 0; progress <= 100; progress += 10)`). -/
def progressValues : List Nat := (List.range 11).map (· * 10)

/-- The effect trace of `uploadFile`: an early return when no file is
selected, otherwise the simulated upload loop, the simulated processing
loop, the completed state and the scheduled redirect. -/
def uploadFileEffects (s : UploadPageState) : List Effect :=
  match s.file with
  | none => []
  | some _ =>
    [Effect.setUploadState UploadState.uploading,
     Effect.setUploadProgress 0, Effect.setError ""]
    ++ (progressValues.map
          (fun p => [Effect.setUploadProgress p, Effect.sleep 200])).flatten
    ++ [Effect.setUploadState UploadState.processing,
        Effect.setProcessingStatus "Analyzing your resume with AI..."]
    ++ (processingSteps.map
          (fun st => [Effect.setProcessingStatus st, Effect.sleep 1500])).flatten
    ++ [Effect.setUploadState UploadState.completed,
        Effect.setProcessingStatus "Resume processed successfully!",
        Effect.scheduleRedirect "/resume/analyze" 2000]

/-- Apply one state-update effect to the page state; waits, redirects and
requests do not change the React state. -/
def applyEffect (s : UploadPageState) : Effect → UploadPageState
  | Effect.setUploadState st => { s with uploadState := st }
  | Effect.setUploadProgress p => { s with uploadProgress := p }
  | Effect.setError msg => { s with errorMsg := msg }
  | Effect.setProcessingStatus msg => { s with processingStatus := msg }
  | _ => s

/-- The page state after `uploadFile` has run to completion. -/
def runUploadFile (s : UploadPageState) : UploadPageState :=
  (uploadFileEffects s).foldl applyEffect s

/-- A convenient concrete upload-page state with a file selected. -/
def sampleUploadState : UploadPageState :=
  ⟨some ⟨"resume.pdf", "application/pdf", 500⟩,
   UploadState.idle, 0, "", "", ""⟩

/-! ## Registration page -/

inductive UserRole where
  | applicant | recruiter
  deriving Repr, DecidableEq

inductive Step where
  | role | details
  deriving Repr, DecidableEq

structure RegFormData where
  firstName : String
  lastName : String
  email : String
  password : String
  confirmPassword : String
  deriving Repr, DecidableEq

/-- The React state of the registration page. -/
structure RegState where
  step : Step
  isLoading : Bool
  showPassword : Bool
  errorMsg : String
  selectedRole : Option UserRole
  formData : RegFormData
  deriving Repr, DecidableEq

/-- The initial registration page state from the `useState` calls. -/
def regInit : RegState :=
  ⟨Step.role, false, false, "", none, ⟨"", "", "", "", ""⟩⟩

/-- `validateForm`: the thrown error message, or `none` when the form is
valid.  JS treats the empty string as falsy, so `!formData.firstName`
reads as `firstName = ""`. -/
def validateForm (fd : RegFormData) : Option String :=
  if fd.firstName = "" ∨ fd.lastName = "" then
    some "Please fill in your full name"
  else if fd.email = "" then
    some "Please enter your email address"
  else if fd.password = "" then
    some "Please enter a password"
  else if fd.password.length < 8 then
    some "Password must be at least 8 characters"
  else if fd.password ≠ fd.confirmPassword then
    some "Passwords do not match"
  else
    none

def handleRoleSelect (role : UserRole) (s : RegState) : RegState :=
  { s with selectedRole := some role }

/-- `handleNext`: early return while no role is selected. -/
def handleNext (s : RegState) : RegState :=
  match s.selectedRole with
  | none => s
  | some _ => { s with step := Step.details }

def handleBack (s : RegState) : RegState :=
  { s with step := Step.role, errorMsg := "" }

inductive FieldName where
  | firstName | lastName | email | password | confirmPassword
  deriving Repr, DecidableEq

def RegFormData.setField (fd : RegFormData) : FieldName → String → RegFormData
  | FieldName.firstName, v => { fd with firstName := v }
  | FieldName.lastName, v => { fd with lastName := v }
  | FieldName.email, v => { fd with email := v }
  | FieldName.password, v => { fd with password := v }
  | FieldName.confirmPassword, v => { fd with confirmPassword := v }

/-- `handleChange`: update the named field; clear the error if one is
displayed. -/
def handleChange (name : FieldName) (value : String) (s : RegState) :
    RegState :=
  { s with formData := s.formData.setField name value,
           errorMsg := if s.errorMsg ≠ "" then "" else s.errorMsg }

/-- `handleSubmit`, run to completion with the simulated API call
succeeding: returns the final state and the route pushed, if any.
`validateForm` failing lands in the catch with the thrown message; the
finally clause always resets `isLoading`. -/
def handleSubmit (s : RegState) : RegState × Option String :=
  ({ s with isLoading := false,
            errorMsg := match validateForm s.formData with
                        | some msg => msg
                        | none => "" },
   match validateForm s.formData with
   | some _ => none
   | none => some "/dashboard")

/-- The user-interface events of the registration page. -/
inductive RegEvent where
  | roleSelect (role : UserRole)
  | next
  | back
  | change (name : FieldName) (value : String)
  | submit
  | toggleShowPassword
  deriving Repr, DecidableEq

def applyRegEvent (e : RegEvent) (s : RegState) : RegState :=
  match e with
  | RegEvent.roleSelect role => handleRoleSelect role s
  | RegEvent.next => handleNext s
  | RegEvent.back => handleBack s
  | RegEvent.change name value => handleChange name value s
  | RegEvent.submit => (handleSubmit s).1
  | RegEvent.toggleShowPassword => { s with showPassword := !s.showPassword }

/-- The registration page states reachable from the initial state by UI
events. -/
inductive RegReachable : RegState → Prop
  | init : RegReachable regInit
  | step {s : RegState} (e : RegEvent) :
      RegReachable s → RegReachable (applyRegEvent e s)

/-! ## Dashboard optimization score

`DashboardPage` starts `optimizationScore` at 87 and every 3 seconds
replaces the score `s` by `min(95, s + Math.random() * 2)`.  The random
increment is modelled as an arbitrary rational `r` with `0 ≤ r < 2`. -/

def dashScoreInit : ℚ := 87

def dashScoreStep (s r : ℚ) : ℚ := min 95 (s + r)

/-- The scores reachable from the initial score by update ticks. -/
inductive ScoreReachable : ℚ → Prop
  | init : ScoreReachable dashScoreInit
  | step {s r : ℚ} : ScoreReachable s → 0 ≤ r → r < 2 →
      ScoreReachable (dashScoreStep s r)

/-! ## Row-level security on the profiles table

From `docs/database-schema.md`: the profiles table carries exactly three
policies — SELECT USING `auth.uid() = user_id`, UPDATE USING
`auth.uid() = user_id`, and INSERT WITH CHECK `auth.uid() = user_id`.
A command on a row succeeds for an authenticated user when some policy
for that command accepts the row (permissive-policy OR semantics). -/

inductive SqlCmd where
  | select | insert | update
  deriving Repr, DecidableEq

/-- A profiles-table row, restricted to the column the policies read. -/
structure ProfileRow where
  user_id : String
  deriving Repr, DecidableEq

/-- One RLS policy: the command it applies to and its predicate on the
requesting user's uid and the row (USING for SELECT/UPDATE, WITH CHECK
for INSERT). -/
structure RlsPolicy where
  cmd : SqlCmd
  pred : String → ProfileRow → Bool

/-- The three policies on the profiles table, in source order. -/
def profilesPolicies : List RlsPolicy :=
  [⟨SqlCmd.select, fun uid row => uid = row.user_id⟩,
   ⟨SqlCmd.update, fun uid row => uid = row.user_id⟩,
   ⟨SqlCmd.insert, fun uid row => uid = row.user_id⟩]

/-- Permissive-policy semantics: the command is allowed on the row iff
some policy for this command accepts it. -/
def rlsAllowed (policies : List RlsPolicy) (uid : String) (cmd : SqlCmd)
    (row : ProfileRow) : Bool :=
  policies.any (fun p => p.cmd = cmd && p.pred uid row)

end MisterHR

/-- C1: `validateFile` errors exactly on a rejected type or an oversized
file, the type check runs first, and an accepted in-limit file yields
`null`. -/
theorem validateFile_spec (cfg : MisterHR.UploadConfig)
    (f : MisterHR.JsFile) :
    ((MisterHR.validateFile cfg f).isSome ↔
      (f.type ∉ cfg.acceptedTypes ∨ f.size > cfg.maxSize)) ∧
    (f.type ∉ cfg.acceptedTypes →
      MisterHR.validateFile cfg f = some (MisterHR.invalidTypeMsg cfg)) ∧
    (f.type ∈ cfg.acceptedTypes → f.size > cfg.maxSize →
      MisterHR.validateFile cfg f = some (MisterHR.oversizeMsg cfg)) ∧
    (f.type ∈ cfg.acceptedTypes → f.size ≤ cfg.maxSize →
      MisterHR.validateFile cfg f = none) := by
  unfold MisterHR.validateFile
  by_cases hty : f.type ∈ cfg.acceptedTypes <;>
    by_cases hsz : f.size > cfg.maxSize <;>
    simp [hty, hsz]

/-- Witness for C1 at a concrete configuration and file. -/
theorem validateFile_spec_witness :
    MisterHR.validateFile
      ⟨["application/pdf"], 1000, ".pdf", "1"⟩
      ⟨"r.txt", "text/plain", 10⟩ =
      some (MisterHR.invalidTypeMsg ⟨["application/pdf"], 1000, ".pdf", "1"⟩) :=
  (validateFile_spec ⟨["application/pdf"], 1000, ".pdf", "1"⟩
    ⟨"r.txt", "text/plain", 10⟩).2.1 (by decide)

/-- C4: `handleFileSelect` is atomic on validation failure — it sets only
the error message and changes nothing else; on success it stores the
file, clears the error and resets the upload state to idle. -/
theorem handleFileSelect_spec (cfg : MisterHR.UploadConfig)
    (f : MisterHR.JsFile) (s : MisterHR.UploadPageState) :
    (∀ msg, MisterHR.validateFile cfg f = some msg →
      MisterHR.handleFileSelect cfg f s = { s with errorMsg := msg }) ∧
    (MisterHR.validateFile cfg f = none →
      MisterHR.handleFileSelect cfg f s =
        { s with file := some f, errorMsg := "",
                 uploadState := MisterHR.UploadState.idle }) := by
  constructor
  · intro msg hmsg
    simp [MisterHR.handleFileSelect, hmsg]
  · intro hnone
    simp [MisterHR.handleFileSelect, hnone]

/-- Witness for C4: a rejected file changes only the error field. -/
theorem handleFileSelect_spec_witness :
    MisterHR.handleFileSelect ⟨["application/pdf"], 1000, ".pdf", "1"⟩
      ⟨"r.txt", "text/plain", 10⟩ MisterHR.sampleUploadState =
      { MisterHR.sampleUploadState with
          errorMsg := MisterHR.invalidTypeMsg
            ⟨["application/pdf"], 1000, ".pdf", "1"⟩ } :=
  (handleFileSelect_spec ⟨["application/pdf"], 1000, ".pdf", "1"⟩
      ⟨"r.txt", "text/plain", 10⟩ MisterHR.sampleUploadState).1
    (MisterHR.invalidTypeMsg ⟨["application/pdf"], 1000, ".pdf", "1"⟩)
    (by decide)

/-- C9: after `removeFile`, in every state, the selected file is null,
the upload state is idle, the error is empty and the file input value is
cleared. -/
theorem removeFile_resets (s : MisterHR.UploadPageState) :
    (MisterHR.removeFile s).file = none ∧
    (MisterHR.removeFile s).uploadState = MisterHR.UploadState.idle ∧
    (MisterHR.removeFile s).errorMsg = "" ∧
    (MisterHR.removeFile s).inputValue = "" :=
  ⟨rfl, rfl, rfl, rfl⟩

/-- C3 counterexample: with a concrete selected file, the effect trace of
`uploadFile` contains no HTTP request at all — the function does not
submit the file to any endpoint, and its outcome is the locally simulated
`completed` state, not one determined by a JSON response. -/
theorem uploadFile_no_request :
    (MisterHR.uploadFileEffects MisterHR.sampleUploadState).filter
        MisterHR.Effect.isHttpRequest = [] ∧
    (MisterHR.runUploadFile MisterHR.sampleUploadState).uploadState =
      MisterHR.UploadState.completed := by
  constructor <;> rfl

/-- C3 amended: whenever a file is selected, `uploadFile` performs no
network request, locally simulates upload and processing, always ends
with upload state `completed`, and schedules a client-side redirect to
'/resume/analyze'. -/
theorem uploadFile_simulates_locally (s : MisterHR.UploadPageState)
    (h : s.file.isSome) :
    (MisterHR.uploadFileEffects s).filter
        MisterHR.Effect.isHttpRequest = [] ∧
    (MisterHR.runUploadFile s).uploadState =
      MisterHR.UploadState.completed ∧
    MisterHR.Effect.scheduleRedirect "/resume/analyze" 2000 ∈
      MisterHR.uploadFileEffects s := by
  obtain ⟨f, hf⟩ := Option.isSome_iff_exists.mp h
  refine ⟨?_, ?_, ?_⟩
  · simp [MisterHR.uploadFileEffects, hf, MisterHR.progressValues,
      MisterHR.processingSteps, List.filter, MisterHR.Effect.isHttpRequest]
  · simp [MisterHR.runUploadFile, MisterHR.uploadFileEffects, hf,
      MisterHR.progressValues, MisterHR.processingSteps,
      MisterHR.applyEffect, List.range_succ]
  · simp [MisterHR.uploadFileEffects, hf]

/-- Witness for the amended C3 at the concrete sample state. -/
theorem uploadFile_simulates_locally_witness :
    (MisterHR.uploadFileEffects MisterHR.sampleUploadState).filter
        MisterHR.Effect.isHttpRequest = [] ∧
    (MisterHR.runUploadFile MisterHR.sampleUploadState).uploadState =
      MisterHR.UploadState.completed ∧
    MisterHR.Effect.scheduleRedirect "/resume/analyze" 2000 ∈
      MisterHR.uploadFileEffects MisterHR.sampleUploadState :=
  uploadFile_simulates_locally MisterHR.sampleUploadState rfl

/-- C2: `validateForm` fails exactly when a name is empty, the email is
empty, the password is empty or shorter than 8 characters, or the
passwords differ, with the message of the first failing check in source
order; it succeeds otherwise. -/
theorem validateForm_spec (fd : MisterHR.RegFormData) :
    ((MisterHR.validateForm fd).isSome ↔
      (fd.firstName = "" ∨ fd.lastName = "" ∨ fd.email = "" ∨
       fd.password = "" ∨ fd.password.length < 8 ∨
       fd.password ≠ fd.confirmPassword)) ∧
    (fd.firstName = "" ∨ fd.lastName = "" →
      MisterHR.validateForm fd = some "Please fill in your full name") ∧
    (fd.firstName ≠ "" → fd.lastName ≠ "" → fd.email = "" →
      MisterHR.validateForm fd = some "Please enter your email address") ∧
    (fd.firstName ≠ "" → fd.lastName ≠ "" → fd.email ≠ "" →
      fd.password = "" →
      MisterHR.validateForm fd = some "Please enter a password") ∧
    (fd.firstName ≠ "" → fd.lastName ≠ "" → fd.email ≠ "" →
      fd.password ≠ "" → fd.password.length < 8 →
      MisterHR.validateForm fd =
        some "Password must be at least 8 characters") ∧
    (fd.firstName ≠ "" → fd.lastName ≠ "" → fd.email ≠ "" →
      fd.password ≠ "" → ¬ fd.password.length < 8 →
      fd.password ≠ fd.confirmPassword →
      MisterHR.validateForm fd = some "Passwords do not match") ∧
    (fd.firstName ≠ "" → fd.lastName ≠ "" → fd.email ≠ "" →
      ¬ fd.password.length < 8 → fd.password = fd.confirmPassword →
      MisterHR.validateForm fd = none) := by
  have hlen : fd.password = "" → fd.password.length < 8 := by
    intro h; rw [h]; decide
  unfold MisterHR.validateForm
  split_ifs with h1 h2 h3 h4 h5 <;> simp_all <;> tauto

/-- Witness for C2: the empty form fails with the full-name message. -/
theorem validateForm_spec_witness :
    MisterHR.validateForm ⟨"", "", "", "", ""⟩ =
      some "Please fill in your full name" :=
  (validateForm_spec ⟨"", "", "", "", ""⟩).2.1 (Or.inl rfl)

/-- C5: a submission failing validation displays exactly the thrown
message, does not navigate, and ends with `isLoading` false; a submission
passing validation navigates to '/dashboard'. -/
theorem handleSubmit_spec (s : MisterHR.RegState) :
    (∀ msg, MisterHR.validateForm s.formData = some msg →
      MisterHR.handleSubmit s =
        ({ s with isLoading := false, errorMsg := msg }, none)) ∧
    (MisterHR.validateForm s.formData = none →
      (MisterHR.handleSubmit s).2 = some "/dashboard") := by
  constructor
  · intro msg hmsg
    simp [MisterHR.handleSubmit, hmsg]
  · intro hnone
    simp [MisterHR.handleSubmit, hnone]

/-- Witness for C5: submitting the initial (empty) form sets the
full-name message, stays on the page and clears `isLoading`. -/
theorem handleSubmit_spec_witness :
    MisterHR.handleSubmit MisterHR.regInit =
      ({ MisterHR.regInit with isLoading := false, errorMsg := "Please fill in your full name" }, none) :=
  (handleSubmit_spec MisterHR.regInit).1 "Please fill in your full name"
    (by decide)

/-- C6: `step` only holds 'role' or 'details'; the only event taking
'role' to 'details' is `next`, which fires only with a role selected; the
only event taking 'details' back to 'role' is `back`, which clears the
error. -/
theorem regStep_toggle (s : MisterHR.RegState) (e : MisterHR.RegEvent) :
    (s.step = MisterHR.Step.role ∨ s.step = MisterHR.Step.details) ∧
    (s.step = MisterHR.Step.role →
      (MisterHR.applyRegEvent e s).step = MisterHR.Step.details →
      e = MisterHR.RegEvent.next ∧ s.selectedRole ≠ none) ∧
    (s.step = MisterHR.Step.details →
      (MisterHR.applyRegEvent e s).step = MisterHR.Step.role →
      e = MisterHR.RegEvent.back ∧
      (MisterHR.applyRegEvent e s).errorMsg = "") := by
  refine ⟨?_, ?_, ?_⟩
  · cases s.step <;> simp
  · intro hrole hdet
    cases e <;>
      simp_all [MisterHR.applyRegEvent, MisterHR.handleRoleSelect,
        MisterHR.handleNext, MisterHR.handleBack, MisterHR.handleChange,
        MisterHR.handleSubmit]
    cases hr : s.selectedRole with
    | none => rw [hr] at hdet; simp_all
    | some r => simp [hr]
  · intro hdet hrole
    cases e <;>
      simp_all [MisterHR.applyRegEvent, MisterHR.handleRoleSelect,
        MisterHR.handleNext, MisterHR.handleBack, MisterHR.handleChange,
        MisterHR.handleSubmit]
    cases hr : s.selectedRole <;> rw [hr] at hrole <;> simp_all

/-- Witness for C6 at a concrete state: advancing from the role step. -/
theorem regStep_toggle_witness :
    MisterHR.RegEvent.next = MisterHR.RegEvent.next ∧
    (MisterHR.handleRoleSelect MisterHR.UserRole.applicant
      MisterHR.regInit).selectedRole ≠ none :=
  (regStep_toggle
    (MisterHR.handleRoleSelect MisterHR.UserRole.applicant MisterHR.regInit)
    MisterHR.RegEvent.next).2.1 rfl rfl

/-- C10: in every reachable registration page state, being on the
'details' step implies a role has been selected. -/
theorem details_has_role (s : MisterHR.RegState)
    (h : MisterHR.RegReachable s) :
    s.step = MisterHR.Step.details → s.selectedRole ≠ none := by
  induction h with
  | init => simp [MisterHR.regInit]
  | @step t e ht ih =>
    cases e with
    | roleSelect r =>
      intro _
      simp [MisterHR.applyRegEvent, MisterHR.handleRoleSelect]
    | next =>
      cases hr : t.selectedRole with
      | none =>
        simp [MisterHR.applyRegEvent, MisterHR.handleNext, hr]
        intro hstep
        exact ih hstep hr
      | some r => simp [MisterHR.applyRegEvent, MisterHR.handleNext, hr]
    | back =>
      simp [MisterHR.applyRegEvent, MisterHR.handleBack]
    | change name value => exact ih
    | submit => exact ih
    | toggleShowPassword => exact ih

/-- Witness for C10 on the concrete reachable state
select-role-then-next. -/
theorem details_has_role_witness :
    (MisterHR.applyRegEvent MisterHR.RegEvent.next
      (MisterHR.applyRegEvent
        (MisterHR.RegEvent.roleSelect MisterHR.UserRole.applicant)
        MisterHR.regInit)).selectedRole ≠ none :=
  details_has_role _
    (MisterHR.RegReachable.step MisterHR.RegEvent.next
      (MisterHR.RegReachable.step
        (MisterHR.RegEvent.roleSelect MisterHR.UserRole.applicant)
        MisterHR.RegReachable.init)) rfl

/-- C8: every reachable dashboard optimization score lies in [87, 95],
and one update tick never decreases the score nor pushes it above 95. -/
theorem optimizationScore_invariant (s : ℚ)
    (h : MisterHR.ScoreReachable s) :
    87 ≤ s ∧ s ≤ 95 ∧
    ∀ r : ℚ, 0 ≤ r → r < 2 →
      s ≤ MisterHR.dashScoreStep s r ∧ MisterHR.dashScoreStep s r ≤ 95 := by
  have bounds : ∀ t : ℚ, MisterHR.ScoreReachable t → 87 ≤ t ∧ t ≤ 95 := by
    intro t ht
    induction ht with
    | init => constructor <;> norm_num [MisterHR.dashScoreInit]
    | step hs h0 h2 ih =>
      unfold MisterHR.dashScoreStep
      constructor
      · exact le_min (by norm_num) (by linarith [ih.1])
      · exact min_le_left _ _
  obtain ⟨hlo, hhi⟩ := bounds s h
  refine ⟨hlo, hhi, fun r h0 h2 => ⟨?_, ?_⟩⟩
  · exact le_min hhi (by linarith)
  · exact min_le_left _ _

/-- Witness for C8 at the initial score and a concrete tick. -/
theorem optimizationScore_invariant_witness :
    87 ≤ MisterHR.dashScoreInit ∧ MisterHR.dashScoreInit ≤ 95 ∧
    MisterHR.dashScoreInit ≤
      MisterHR.dashScoreStep MisterHR.dashScoreInit 1 ∧
    MisterHR.dashScoreStep MisterHR.dashScoreInit 1 ≤ 95 :=
  ⟨(optimizationScore_invariant MisterHR.dashScoreInit
      MisterHR.ScoreReachable.init).1,
   (optimizationScore_invariant MisterHR.dashScoreInit
      MisterHR.ScoreReachable.init).2.1,
   (optimizationScore_invariant MisterHR.dashScoreInit
      MisterHR.ScoreReachable.init).2.2 1 (by norm_num) (by norm_num)⟩

/-- C7: under the profiles-table RLS policies, SELECT, UPDATE and INSERT
on a row succeed exactly when the requesting user's uid equals the row's
`user_id`. -/
theorem profiles_rls_owner_only (uid : String) (cmd : MisterHR.SqlCmd)
    (row : MisterHR.ProfileRow) :
    MisterHR.rlsAllowed MisterHR.profilesPolicies uid cmd row = true ↔
      uid = row.user_id := by
  cases cmd <;>
    simp [MisterHR.rlsAllowed, MisterHR.profilesPolicies]
